import Mathlib

/-!
Verification of the Digitakt MIDI MCP server's scheduling core.

The Python source (`server.py`, `parameter_map.py`, `nrpn_constants.py`,
`tests/test_automation_looping.py`) is shallowly embedded below:

* Python `int(x)` (truncation toward zero) is `pyInt` over `ℚ`;
* Python `round(x)` (banker's rounding, half to even) is `pyRound` over `ℚ`;
* `mido` messages become the inductive type `Msg`;
* `math.exp` is an uninterpreted parameter `mexp : ℚ → ℚ` of the two
  sweep tools (both call it with identical arguments, so the refinement
  results are independent of its values);
* the `call_tool` dispatch loop of `play_pattern_with_tracks_and_melody`
  is a fold `tmLoop` over `List.range total_pulses`, recording the exact
  sequence of `output_port.send` calls of the main task, each tagged with
  the pulse index at which it is issued.
-/

/-- Python `int()` applied to a rational: truncation toward zero. -/
def pyInt (q : ℚ) : ℤ :=
  if q < 0 then -(⌊-q⌋) else ⌊q⌋

/-- Python `round()` applied to a rational: round half to even. -/
def pyRound (q : ℚ) : ℤ :=
  if q - ⌊q⌋ < 1/2 then ⌊q⌋
  else if 1/2 < q - ⌊q⌋ then ⌊q⌋ + 1
  else if Even ⌊q⌋ then ⌊q⌋ else ⌊q⌋ + 1

theorem pyInt_of_nonneg {q : ℚ} (h : 0 ≤ q) : pyInt q = ⌊q⌋ := by
  unfold pyInt
  rw [if_neg (not_lt.mpr h)]

theorem pyInt_intCast (z : ℤ) : pyInt (z : ℚ) = z := by
  unfold pyInt
  rcases lt_or_ge (z : ℚ) 0 with h | h
  · rw [if_pos h]
    have : -(z : ℚ) = ((-z : ℤ) : ℚ) := by push_cast; ring
    rw [this, Int.floor_intCast]
    ring
  · rw [if_neg (not_lt.mpr h), Int.floor_intCast]

theorem pyRound_intCast (z : ℤ) : pyRound (z : ℚ) = z := by
  unfold pyRound
  simp only [Int.floor_intCast, sub_self]
  norm_num

theorem pyRound_near (q : ℚ) : |(pyRound q : ℚ) - q| ≤ 1/2 := by
  unfold pyRound
  have h0 : (0:ℚ) ≤ q - ⌊q⌋ := by
    have := Int.floor_le q
    linarith
  have h1 : q - ⌊q⌋ < 1 := by
    have := Int.lt_floor_add_one q
    linarith
  split
  · next h => rw [abs_le]; constructor <;> linarith
  · split
    · next h h' => rw [abs_le]; push_cast; constructor <;> linarith
    · next h h' =>
      have hr : q - (⌊q⌋ : ℚ) = 1/2 := le_antisymm (not_lt.mp h') (not_lt.mp h)
      split <;> (rw [abs_le]; push_cast; constructor <;> linarith)

/-- The wire messages the server can hand to the output port (`mido` messages). -/
inductive Msg where
  | noteOn (note vel ch : ℤ)
  | noteOff (note ch : ℤ)
  | cc (ctrl val ch : ℤ)
  | progChange (program ch : ℤ)
  | clock
  | mstart
  | mstop
  | mcontinue
  | songpos (pos : ℤ)
deriving DecidableEq, Repr

/-! ### Constants from `nrpn_constants.py` -/

namespace TrackCC

def MUTE : ℤ := 94

def LEVEL : ℤ := 95

end TrackCC

namespace SourceCC

def TUNE : ℤ := 16

def SAMPLE_SLOT : ℤ := 19

def SAMPLE_START : ℤ := 20

def SAMPLE_LENGTH : ℤ := 21

def SAMPLE_LOOP : ℤ := 22

def SAMPLE_LEVEL : ℤ := 23

end SourceCC

namespace FilterCC

def ATTACK : ℤ := 70

def DECAY : ℤ := 71

def SUSTAIN : ℤ := 72

def RELEASE : ℤ := 73

def FREQUENCY : ℤ := 74

def ENV_DEPTH : ℤ := 77

end FilterCC

namespace AmpCC

def ATTACK : ℤ := 79

def HOLD : ℤ := 80

def DECAY : ℤ := 81

def SUSTAIN : ℤ := 82

def RELEASE : ℤ := 83

def VOLUME : ℤ := 89

def PAN : ℤ := 90

end AmpCC

namespace FXCC

def CHORUS_SEND : ℤ := 12

def DELAY_SEND : ℤ := 84

def REVERB_SEND : ℤ := 85

def OVERDRIVE : ℤ := 57

end FXCC

namespace TrigParams

def MSB : ℤ := 3

def NOTE : ℤ := 0

def VELOCITY : ℤ := 1

def LENGTH : ℤ := 2

end TrigParams

namespace SourceParams

def MSB : ℤ := 1

def FINE_TUNE : ℤ := 1

def SAMPLE_START : ℤ := 4

def SAMPLE_LENGTH : ℤ := 5

def SAMPLE_LOOP : ℤ := 6

def SAMPLE_LEVEL : ℤ := 7

def SAMPLE_SLOT : ℤ := 8

end SourceParams

namespace FilterParams

def MSB : ℤ := 1

def RESONANCE : ℤ := 21

def TYPE : ℤ := 22

end FilterParams

namespace AmpParams

def MSB : ℤ := 1

def MODE : ℤ := 40

def ENV_RESET : ℤ := 41

end AmpParams

namespace LFO1Params

def MSB : ℤ := 1

def SPEED : ℤ := 42

def MULTIPLIER : ℤ := 43

def FADE : ℤ := 44

def DESTINATION : ℤ := 45

def WAVEFORM : ℤ := 46

def START_PHASE : ℤ := 47

def TRIG_MODE : ℤ := 48

def DEPTH : ℤ := 49

end LFO1Params

namespace LFO2Params

def MSB : ℤ := 1

def SPEED : ℤ := 50

def MULTIPLIER : ℤ := 51

def FADE : ℤ := 52

def DESTINATION : ℤ := 53

def WAVEFORM : ℤ := 54

def START_PHASE : ℤ := 55

def TRIG_MODE : ℤ := 56

def DEPTH : ℤ := 57

end LFO2Params

namespace LFO3Params

def MSB : ℤ := 1

def SPEED : ℤ := 58

def MULTIPLIER : ℤ := 59

def FADE : ℤ := 60

def DESTINATION : ℤ := 61

def WAVEFORM : ℤ := 62

def START_PHASE : ℤ := 70

def TRIG_MODE : ℤ := 71

def DEPTH : ℤ := 72

end LFO3Params

namespace DelayParams

def MSB : ℤ := 2

def TIME : ℤ := 0

def PINGPONG : ℤ := 1

def STEREO_WIDTH : ℤ := 2

def FEEDBACK : ℤ := 3

def HPF : ℤ := 4

def LPF : ℤ := 5

def REVERB_SEND : ℤ := 6

def MIX : ℤ := 7

end DelayParams

namespace ReverbParams

def MSB : ℤ := 2

def PREDELAY : ℤ := 8

def DECAY : ℤ := 9

def SHELVING_FREQ : ℤ := 10

def SHELVING_GAIN : ℤ := 11

def HPF : ℤ := 12

def LPF : ℤ := 13

def MIX : ℤ := 15

end ReverbParams

namespace ChorusParams

def MSB : ℤ := 2

def DEPTH : ℤ := 41

def SPEED : ℤ := 42

def HPF : ℤ := 43

def WIDTH : ℤ := 44

def DELAY_SEND : ℤ := 45

def REVERB_SEND : ℤ := 46

def MIX : ℤ := 47

end ChorusParams

/-! ### Parameter map from `parameter_map.py` -/

/-- A resolved parameter address: a plain CC or a 4-message NRPN, with its
declared legal value range (the dict entries of `PARAMETER_MAP`). -/
inductive ParamInfo where
  | cc (cc lo hi : ℤ)
  | nrpn (msb lsb lo hi : ℤ)
deriving DecidableEq, Repr

set_option maxHeartbeats 1000000 in
/-- The `PARAMETER_MAP` dict: insertion-ordered association list. -/
def PARAMETER_MAP : List (String × ParamInfo) := [
  ("filter_cutoff", .cc FilterCC.FREQUENCY 0 127),
  ("filter_frequency", .cc FilterCC.FREQUENCY 0 127),
  ("filter_resonance", .nrpn FilterParams.MSB FilterParams.RESONANCE 0 127),
  ("filter_type", .nrpn FilterParams.MSB FilterParams.TYPE 0 127),
  ("filter_attack", .cc FilterCC.ATTACK 0 127),
  ("filter_decay", .cc FilterCC.DECAY 0 127),
  ("filter_sustain", .cc FilterCC.SUSTAIN 0 127),
  ("filter_release", .cc FilterCC.RELEASE 0 127),
  ("filter_env_depth", .cc FilterCC.ENV_DEPTH 0 127),
  ("filter_envelope_depth", .cc FilterCC.ENV_DEPTH 0 127),
  ("amp_volume", .cc AmpCC.VOLUME 0 127),
  ("amp_pan", .cc AmpCC.PAN 0 127),
  ("volume", .cc AmpCC.VOLUME 0 127),
  ("pan", .cc AmpCC.PAN 0 127),
  ("amp_attack", .cc AmpCC.ATTACK 0 127),
  ("amp_hold", .cc AmpCC.HOLD 0 127),
  ("amp_decay", .cc AmpCC.DECAY 0 127),
  ("amp_sustain", .cc AmpCC.SUSTAIN 0 127),
  ("amp_release", .cc AmpCC.RELEASE 0 127),
  ("amp_mode", .nrpn AmpParams.MSB AmpParams.MODE 0 127),
  ("amp_env_reset", .nrpn AmpParams.MSB AmpParams.ENV_RESET 0 127),
  ("tune", .cc SourceCC.TUNE 0 127),
  ("pitch", .cc SourceCC.TUNE 0 127),
  ("sample_level", .cc SourceCC.SAMPLE_LEVEL 0 127),
  ("fine_tune", .nrpn SourceParams.MSB SourceParams.FINE_TUNE 0 127),
  ("sample_slot", .nrpn SourceParams.MSB SourceParams.SAMPLE_SLOT 0 127),
  ("sample_start", .nrpn SourceParams.MSB SourceParams.SAMPLE_START 0 127),
  ("sample_length", .nrpn SourceParams.MSB SourceParams.SAMPLE_LENGTH 0 127),
  ("sample_loop", .nrpn SourceParams.MSB SourceParams.SAMPLE_LOOP 0 127),
  ("sample_volume", .nrpn SourceParams.MSB SourceParams.SAMPLE_LEVEL 0 127),
  ("lfo1_speed", .nrpn LFO1Params.MSB LFO1Params.SPEED 0 127),
  ("lfo1_multiplier", .nrpn LFO1Params.MSB LFO1Params.MULTIPLIER 0 127),
  ("lfo1_fade", .nrpn LFO1Params.MSB LFO1Params.FADE 0 127),
  ("lfo1_destination", .nrpn LFO1Params.MSB LFO1Params.DESTINATION 0 127),
  ("lfo1_waveform", .nrpn LFO1Params.MSB LFO1Params.WAVEFORM 0 127),
  ("lfo1_start_phase", .nrpn LFO1Params.MSB LFO1Params.START_PHASE 0 127),
  ("lfo1_trig_mode", .nrpn LFO1Params.MSB LFO1Params.TRIG_MODE 0 127),
  ("lfo1_depth", .nrpn LFO1Params.MSB LFO1Params.DEPTH 0 127),
  ("lfo2_speed", .nrpn LFO2Params.MSB LFO2Params.SPEED 0 127),
  ("lfo2_multiplier", .nrpn LFO2Params.MSB LFO2Params.MULTIPLIER 0 127),
  ("lfo2_fade", .nrpn LFO2Params.MSB LFO2Params.FADE 0 127),
  ("lfo2_destination", .nrpn LFO2Params.MSB LFO2Params.DESTINATION 0 127),
  ("lfo2_waveform", .nrpn LFO2Params.MSB LFO2Params.WAVEFORM 0 127),
  ("lfo2_start_phase", .nrpn LFO2Params.MSB LFO2Params.START_PHASE 0 127),
  ("lfo2_trig_mode", .nrpn LFO2Params.MSB LFO2Params.TRIG_MODE 0 127),
  ("lfo2_depth", .nrpn LFO2Params.MSB LFO2Params.DEPTH 0 127),
  ("lfo3_speed", .nrpn LFO3Params.MSB LFO3Params.SPEED 0 127),
  ("lfo3_multiplier", .nrpn LFO3Params.MSB LFO3Params.MULTIPLIER 0 127),
  ("lfo3_fade", .nrpn LFO3Params.MSB LFO3Params.FADE 0 127),
  ("lfo3_destination", .nrpn LFO3Params.MSB LFO3Params.DESTINATION 0 127),
  ("lfo3_waveform", .nrpn LFO3Params.MSB LFO3Params.WAVEFORM 0 127),
  ("lfo3_start_phase", .nrpn LFO3Params.MSB LFO3Params.START_PHASE 0 127),
  ("lfo3_trig_mode", .nrpn LFO3Params.MSB LFO3Params.TRIG_MODE 0 127),
  ("lfo3_depth", .nrpn LFO3Params.MSB LFO3Params.DEPTH 0 127),
  ("chorus_send", .cc FXCC.CHORUS_SEND 0 127),
  ("delay_send", .cc FXCC.DELAY_SEND 0 127),
  ("reverb_send", .cc FXCC.REVERB_SEND 0 127),
  ("overdrive", .cc FXCC.OVERDRIVE 0 127),
  ("delay_time", .nrpn DelayParams.MSB DelayParams.TIME 0 127),
  ("delay_pingpong", .nrpn DelayParams.MSB DelayParams.PINGPONG 0 127),
  ("delay_stereo_width", .nrpn DelayParams.MSB DelayParams.STEREO_WIDTH 0 127),
  ("delay_feedback", .nrpn DelayParams.MSB DelayParams.FEEDBACK 0 127),
  ("delay_hpf", .nrpn DelayParams.MSB DelayParams.HPF 0 127),
  ("delay_lpf", .nrpn DelayParams.MSB DelayParams.LPF 0 127),
  ("delay_reverb_send", .nrpn DelayParams.MSB DelayParams.REVERB_SEND 0 127),
  ("delay_mix", .nrpn DelayParams.MSB DelayParams.MIX 0 127),
  ("reverb_predelay", .nrpn ReverbParams.MSB ReverbParams.PREDELAY 0 127),
  ("reverb_decay", .nrpn ReverbParams.MSB ReverbParams.DECAY 0 127),
  ("reverb_shelving_freq", .nrpn ReverbParams.MSB ReverbParams.SHELVING_FREQ 0 127),
  ("reverb_shelving_gain", .nrpn ReverbParams.MSB ReverbParams.SHELVING_GAIN 0 127),
  ("reverb_hpf", .nrpn ReverbParams.MSB ReverbParams.HPF 0 127),
  ("reverb_lpf", .nrpn ReverbParams.MSB ReverbParams.LPF 0 127),
  ("reverb_mix", .nrpn ReverbParams.MSB ReverbParams.MIX 0 127),
  ("chorus_depth", .nrpn ChorusParams.MSB ChorusParams.DEPTH 0 127),
  ("chorus_speed", .nrpn ChorusParams.MSB ChorusParams.SPEED 0 127),
  ("chorus_hpf", .nrpn ChorusParams.MSB ChorusParams.HPF 0 127),
  ("chorus_width", .nrpn ChorusParams.MSB ChorusParams.WIDTH 0 127),
  ("chorus_delay_send", .nrpn ChorusParams.MSB ChorusParams.DELAY_SEND 0 127),
  ("chorus_reverb_send", .nrpn ChorusParams.MSB ChorusParams.REVERB_SEND 0 127),
  ("chorus_mix", .nrpn ChorusParams.MSB ChorusParams.MIX 0 127),
  ("track_level", .cc TrackCC.LEVEL 0 127),
  ("track_mute", .cc TrackCC.MUTE 0 127),
  ("trig_note", .nrpn TrigParams.MSB TrigParams.NOTE 0 127),
  ("trig_velocity", .nrpn TrigParams.MSB TrigParams.VELOCITY 0 127),
  ("trig_length", .nrpn TrigParams.MSB TrigParams.LENGTH 0 127)]

/-- `get_parameter_info`: dict lookup (`PARAMETER_MAP.get`). -/
def get_parameter_info (param_name : String) : Option ParamInfo :=
  PARAMETER_MAP.lookup param_name

/-- The range bounds of a resolved parameter. -/
def ParamInfo.range : ParamInfo → ℤ × ℤ
  | .cc _ lo hi => (lo, hi)
  | .nrpn _ _ lo hi => (lo, hi)

/-- The sorted, comma-joined list of valid parameter names, as interpolated
into the unknown-parameter error message
(`", ".join(sorted(PARAMETER_MAP.keys()))`). -/
def availableParams : String :=
  String.intercalate ", "
    (List.insertionSort (fun a b : String => a ≤ b) (PARAMETER_MAP.map Prod.fst))

/-- `validate_parameter` from `parameter_map.py`: returns
`(is_valid, error_message)`. -/
def validate_parameter (param_name : String) (value : ℤ) : Bool × String :=
  match get_parameter_info param_name with
  | none =>
      (false, "Unknown parameter \x27" ++ param_name ++
        "\x27. Available parameters: " ++ availableParams)
  | some info =>
      let lo := info.range.1
      let hi := info.range.2
      if lo ≤ value ∧ value ≤ hi then (true, "")
      else (false, "Value " ++ toString value ++ " out of range for \x27" ++
        param_name ++ "\x27 (valid range: " ++ toString lo ++ "-" ++
        toString hi ++ ")")

/-! ### Wire encoder: `send_parameter_change` from `server.py` -/

/-- `send_parameter_change`: the list of messages pushed to the output port,
or the `ValueError` text for an unknown name. A CC-typed parameter yields one
control change; an NRPN-typed parameter yields the fixed 4-message burst
CC99=MSB, CC98=LSB, CC6=value, CC38=0. -/
def send_parameter_change (param_name : String) (value : ℤ) (channel : ℤ) :
    Except String (List Msg) :=
  match get_parameter_info param_name with
  | none => .error ("Unknown parameter: " ++ param_name)
  | some (.cc c _ _) => .ok [Msg.cc c value channel]
  | some (.nrpn msb lsb _ _) =>
      .ok [Msg.cc 99 msb channel, Msg.cc 98 lsb channel,
           Msg.cc 6 value channel, Msg.cc 38 0 channel]

/-- The messages `send_parameter_change` emits for a name already known to
resolve (the scheduler loops only call it after validation). -/
def sendParamMsgs (param_name : String) (value : ℤ) (channel : ℤ) : List Msg :=
  match send_parameter_change param_name value channel with
  | .ok msgs => msgs
  | .error _ => []

/-! ### Stable sort by pulse (Python `list.sort(key=...)` is stable) -/

/-- Insert an element into a list already sorted on an integer key, after all
strictly smaller keys and before all others (stable position). -/
def pinsert {α : Type} (key : α → ℤ) (e : α) : List α → List α
  | [] => [e]
  | x :: xs => if key x < key e then x :: pinsert key e xs else e :: x :: xs

/-- Stable sort on an integer key, the semantics of `list.sort(key=...)`. -/
def stableSortKey {α : Type} (key : α → ℤ) : List α → List α
  | [] => []
  | x :: xs => pinsert key x (stableSortKey key xs)

theorem pinsert_perm {α : Type} (key : α → ℤ) (e : α) (l : List α) :
    List.Perm (pinsert key e l) (e :: l) := by
  induction l with
  | nil => rfl
  | cons x xs ih =>
    unfold pinsert
    split
    · exact List.Perm.trans (List.Perm.cons x ih) (List.Perm.swap e x xs)
    · rfl

theorem stableSortKey_perm {α : Type} (key : α → ℤ) (l : List α) :
    List.Perm (stableSortKey key l) l := by
  induction l with
  | nil => rfl
  | cons x xs ih =>
    exact List.Perm.trans (pinsert_perm key x (stableSortKey key xs))
      (List.Perm.cons x ih)

/-! ### `play_pattern_with_tracks_and_melody` (server.py 1749-1847) -/

/-- A `track_triggers` entry `[beat, track, velocity?, chromatic_note?]`. -/
structure Trigger where
  beat : ℚ
  track : ℤ
  vel : Option ℤ
  chrom : Option ℤ
deriving DecidableEq, Repr

/-- A `melody_notes` entry `[beat, note, velocity?, duration?]`. -/
structure MelodyNote where
  beat : ℚ
  note : ℤ
  vel : Option ℤ
  dur : Option ℚ
deriving DecidableEq, Repr

/-- One entry of the combined `event_schedule`
`(event_type, pulse_index, note, velocity, duration, channel)`. -/
structure TMEvent where
  etype : String
  pulse : ℤ
  note : ℤ
  vel : ℤ
  dur : ℚ
  ch : ℤ
deriving DecidableEq, Repr

/-- Schedule entry built from one track trigger: pulse `int(beat*24)`, note
`chromatic` if given else `track - 1`, channel 0, duration 0.05 s.
Track triggers are not shifted by preroll. -/
def trigEntry (t : Trigger) : TMEvent :=
  { etype := "track", pulse := pyInt (t.beat * 24),
    note := match t.chrom with | some n => n | none => t.track - 1,
    vel := t.vel.getD 100, dur := 5/100, ch := 0 }

/-- Schedule entry built from one melody note: the beat is first shifted by
`preroll_beats = preroll_bars * 4`, then converted via `int(beat*24)`. -/
def melEntry (prerollBars : ℚ) (channel : ℤ) (m : MelodyNote) : TMEvent :=
  { etype := "melody", pulse := pyInt ((m.beat + prerollBars * 4) * 24),
    note := m.note, vel := m.vel.getD 100, dur := m.dur.getD (1/10),
    ch := channel }

/-- The combined event schedule before sorting: all track triggers in input
order, then all melody notes in input order. -/
def tmScheduleRaw (track_triggers : List Trigger) (melody_notes : List MelodyNote)
    (preroll_bars : ℚ) (channel : ℤ) : List TMEvent :=
  track_triggers.map trigEntry ++ melody_notes.map (melEntry preroll_bars channel)

/-- Arguments of one `play_pattern_with_tracks_and_melody` call
(`channel` is already converted to its 0-indexed form). -/
structure TMConfig where
  bars : ℚ
  bpm : ℚ
  track_triggers : List Trigger
  melody_notes : List MelodyNote
  channel : ℤ
  midi_start_at_beat : ℚ
  preroll_bars : ℚ
  send_stop : Bool

/-- `total_pulses = int(bars * 96)`; `range` of a negative count is empty. -/
def totalPulses (cfg : TMConfig) : Nat := (pyInt (cfg.bars * 96)).toNat

/-- `start_pulse = int(midi_start_at_beat * 24)`. -/
def startPulse (cfg : TMConfig) : ℤ := pyInt (cfg.midi_start_at_beat * 24)

/-- The sorted event schedule handed to the pulse loop. -/
def tmSchedule (cfg : TMConfig) : List TMEvent :=
  stableSortKey (fun e => e.pulse)
    (tmScheduleRaw cfg.track_triggers cfg.melody_notes cfg.preroll_bars cfg.channel)

/-- Run state of the pulse loop: the `midi_started` flag, the not yet
consumed suffix of the sorted schedule, and the pulse-tagged trace of
messages sent so far by the main task. -/
structure TMState where
  midi_started : Bool
  events : List TMEvent
  out : List (Nat × Msg)
deriving Repr

/-- Body of `for i in range(total_pulses)`: maybe send song-position pointer
and start, then a clock if started, then every due `note_on` (the deferred
note-off tasks are outside the main task and not part of this trace). -/
def tmStep (sp : ℤ) (msab : ℚ) (i : Nat) (s : TMState) : TMState :=
  let fire : Bool := decide ((i : ℤ) = sp) && !s.midi_started
  let startMsgs : List Msg :=
    if fire then
      (if 0 < msab then [Msg.songpos (pyInt (msab * 4))] else []) ++ [Msg.mstart]
    else []
  let started2 : Bool := s.midi_started || fire
  let clockMsgs : List Msg := if started2 then [Msg.clock] else []
  let due := s.events.takeWhile (fun e => decide (e.pulse = (i : ℤ)))
  let rest := s.events.dropWhile (fun e => decide (e.pulse = (i : ℤ)))
  ⟨started2, rest,
    s.out ++ (startMsgs ++ clockMsgs ++
      due.map (fun e => Msg.noteOn e.note e.vel e.ch)).map (fun m => (i, m))⟩

/-- The pulse loop folded over the first `n` pulses. -/
def tmLoop (sp : ℤ) (msab : ℚ) (sched : List TMEvent) (n : Nat) : TMState :=
  (List.range n).foldl (fun s i => tmStep sp msab i s) ⟨false, sched, []⟩

/-- Final loop state of one `play_pattern_with_tracks_and_melody` call. -/
def tmRun (cfg : TMConfig) : TMState :=
  tmLoop (startPulse cfg) cfg.midi_start_at_beat (tmSchedule cfg) (totalPulses cfg)

/-- The complete pulse-tagged trace of the call: the loop trace followed by
the optional final transport stop (sent only if `send_stop` and a start was
actually emitted). -/
def tmTrace (cfg : TMConfig) : List (Nat × Msg) :=
  (tmRun cfg).out ++
    (if cfg.send_stop && (tmRun cfg).midi_started
     then [(totalPulses cfg, Msg.mstop)] else [])

/-- The status fragment of the returned summary text. -/
def tmStatus (cfg : TMConfig) : String :=
  if cfg.send_stop && (tmRun cfg).midi_started then "and stopped"
  else if (tmRun cfg).midi_started then "(still running)"
  else "(no MIDI Start sent - all notes before midi_start_at_beat)"

/-- Messages of a trace issued at pulse `p`, in send order. -/
def msgsAt (tr : List (Nat × Msg)) (p : Nat) : List Msg :=
  (tr.filter (fun pm => pm.1 == p)).map Prod.snd

/-! ### Closed form of the pulse loop -/

/-- Suffix of the sorted schedule still unconsumed after pulses `0..n-1`. -/
def evRemaining (sched : List TMEvent) : Nat → List TMEvent
  | 0 => sched
  | n + 1 => (evRemaining sched n).dropWhile (fun e => decide (e.pulse = (n : ℤ)))

/-- Events dispatched at pulse `i`. -/
def dueAt (sched : List TMEvent) (i : Nat) : List TMEvent :=
  (evRemaining sched i).takeWhile (fun e => decide (e.pulse = (i : ℤ)))

/-- `midi_started` at entry of pulse `n`: true iff the start pulse was hit
at some earlier pulse. -/
def startedB (sp : ℤ) (n : Nat) : Bool := decide (0 ≤ sp ∧ sp < (n : ℤ))

/-- Messages the loop body sends at pulse `i`, in order: the deferred-start
block, then the clock, then the due note-ons. -/
def pulseMsgs (sp : ℤ) (msab : ℚ) (sched : List TMEvent) (i : Nat) : List Msg :=
  (if decide ((i : ℤ) = sp) && !startedB sp i then
      (if 0 < msab then [Msg.songpos (pyInt (msab * 4))] else []) ++ [Msg.mstart]
   else [])
  ++ (if startedB sp (i + 1) then [Msg.clock] else [])
  ++ (dueAt sched i).map (fun e => Msg.noteOn e.note e.vel e.ch)

/-- The loop trace over pulses `0..n-1` in closed form. -/
def tmOut (sp : ℤ) (msab : ℚ) (sched : List TMEvent) (n : Nat) : List (Nat × Msg) :=
  (List.range n).flatMap (fun i => (pulseMsgs sp msab sched i).map (fun m => (i, m)))

theorem startedB_succ (sp : ℤ) (n : Nat) :
    (startedB sp n || (decide ((n : ℤ) = sp) && !startedB sp n)) = startedB sp (n + 1) := by
  by_cases h1 : 0 ≤ sp ∧ sp < (n : ℤ)
  · have h2 : 0 ≤ sp ∧ sp < (n : ℤ) + 1 := by omega
    simp [startedB, h1, h2]
  · by_cases h3 : (n : ℤ) = sp
    · have h2 : 0 ≤ sp ∧ sp < (n : ℤ) + 1 := by omega
      simp [startedB, h1, h3, h2]
    · have h2 : ¬(0 ≤ sp ∧ sp < (n : ℤ) + 1) := by omega
      simp [startedB, h1, h3, h2]

/-- When the loop reaches the start pulse, `midi_started` is still false. -/
theorem startedB_self (sp : ℤ) (n : Nat) (h : (n : ℤ) = sp) :
    startedB sp n = false := by
  simp only [startedB, decide_eq_false_iff_not]
  omega

theorem tmOut_succ (sp : ℤ) (msab : ℚ) (sched : List TMEvent) (n : Nat) :
    tmOut sp msab sched (n + 1) =
      tmOut sp msab sched n ++ (pulseMsgs sp msab sched n).map (fun m => (n, m)) := by
  unfold tmOut
  rw [List.range_succ, List.flatMap_append, List.flatMap_cons, List.flatMap_nil,
    List.append_nil]

theorem tmStep_closed (sp : ℤ) (msab : ℚ) (sched : List TMEvent) (n : Nat) :
    tmStep sp msab n ⟨startedB sp n, evRemaining sched n, tmOut sp msab sched n⟩ =
      ⟨startedB sp (n + 1), evRemaining sched (n + 1), tmOut sp msab sched (n + 1)⟩ := by
  unfold tmStep
  rw [tmOut_succ]
  dsimp only
  rw [startedB_succ sp n]
  rfl

/-- The pulse loop in closed form: `midi_started` is determined by the pulse
count, events are consumed pulse by pulse, and the trace is the
concatenation of the per-pulse blocks. -/
theorem tmLoop_closed (sp : ℤ) (msab : ℚ) (sched : List TMEvent) (n : Nat) :
    tmLoop sp msab sched n =
      ⟨startedB sp n, evRemaining sched n, tmOut sp msab sched n⟩ := by
  induction n with
  | zero =>
    have h0 : startedB sp 0 = false := by
      simp only [startedB, decide_eq_false_iff_not]
      omega
    simp [tmLoop, tmOut, evRemaining, h0]
  | succ n ih =>
    have hstep : tmLoop sp msab sched (n + 1) =
        tmStep sp msab n (tmLoop sp msab sched n) := by
      unfold tmLoop
      rw [List.range_succ, List.foldl_append, List.foldl_cons, List.foldl_nil]
    rw [hstep, ih, tmStep_closed]

theorem msgsAt_append (a b : List (Nat × Msg)) (p : Nat) :
    msgsAt (a ++ b) p = msgsAt a p ++ msgsAt b p := by
  unfold msgsAt
  rw [List.filter_append, List.map_append]

theorem msgsAt_tag (B : List Msg) (n p : Nat) :
    msgsAt (B.map (fun m => (n, m))) p = if n = p then B else [] := by
  induction B with
  | nil => simp [msgsAt]
  | cons m ms ih =>
    by_cases h : n = p
    · subst h
      simp only [msgsAt, List.map_cons, List.filter_cons] at ih ⊢
      simpa using ih
    · simp only [msgsAt, List.map_cons, List.filter_cons] at ih ⊢
      simp only [h, if_neg] at ih ⊢
      simp [h]

theorem msgsAt_tmOut (sp : ℤ) (msab : ℚ) (sched : List TMEvent) (n p : Nat) :
    msgsAt (tmOut sp msab sched n) p =
      if p < n then pulseMsgs sp msab sched p else [] := by
  induction n with
  | zero => simp [tmOut, msgsAt]
  | succ n ih =>
    rw [tmOut_succ, msgsAt_append, ih, msgsAt_tag]
    by_cases h : p < n
    · have h1 : p < n + 1 := by omega
      have h2 : ¬(n = p) := by omega
      simp [h, h1, h2]
    · by_cases h3 : p = n
      · subst h3
        simp [h]
      · have h4 : ¬(p < n + 1) := by omega
        have h5 : ¬(n = p) := fun hh => h3 hh.symm
        simp [h, h4, h5]

theorem mem_tmOut {sp : ℤ} {msab : ℚ} {sched : List TMEvent} {n : Nat}
    {pm : Nat × Msg} (h : pm ∈ tmOut sp msab sched n) :
    pm.1 < n ∧ pm.2 ∈ pulseMsgs sp msab sched pm.1 := by
  unfold tmOut at h
  rw [List.mem_flatMap] at h
  obtain ⟨i, hi, hmem⟩ := h
  rw [List.mem_range] at hi
  rw [List.mem_map] at hmem
  obtain ⟨m, hm, rfl⟩ := hmem
  exact ⟨hi, hm⟩

/-- Any message in a per-pulse block is one of: the start of the deferred
transport block (only at the start pulse), the clock (only once started),
or a note-on. -/
theorem mem_pulseMsgs_cases {sp : ℤ} {msab : ℚ} {sched : List TMEvent}
    {i : Nat} {m : Msg} (h : m ∈ pulseMsgs sp msab sched i) :
    (m = Msg.mstart ∧ (i : ℤ) = sp) ∨
    (∃ x, m = Msg.songpos x ∧ (i : ℤ) = sp ∧ 0 < msab ∧ x = pyInt (msab * 4)) ∨
    (m = Msg.clock ∧ 0 ≤ sp ∧ sp ≤ (i : ℤ)) ∨
    (∃ note vel ch, m = Msg.noteOn note vel ch) := by
  unfold pulseMsgs at h
  rw [List.mem_append, List.mem_append] at h
  rcases h with (h | h) | h
  · split at h
    · next hfire =>
      have heq : (i : ℤ) = sp := by
        have := (Bool.and_eq_true _ _).mp hfire
        exact of_decide_eq_true this.1
      rw [List.mem_append] at h
      rcases h with h | h
      · split at h
        · next hpos =>
          rw [List.mem_singleton] at h
          exact Or.inr (Or.inl ⟨pyInt (msab * 4), h, heq, hpos, rfl⟩)
        · exact absurd h (List.not_mem_nil m)
      · rw [List.mem_singleton] at h
        exact Or.inl ⟨h, heq⟩
    · exact absurd h (List.not_mem_nil m)
  · split at h
    · next hstarted =>
      rw [List.mem_singleton] at h
      have hp : 0 ≤ sp ∧ sp < (i : ℤ) + 1 := by
        have := of_decide_eq_true hstarted
        constructor
        · exact this.1
        · have h2 := this.2
          push_cast at h2
          omega
      exact Or.inr (Or.inr (Or.inl ⟨h, hp.1, by omega⟩))
    · exact absurd h (List.not_mem_nil m)
  · rw [List.mem_map] at h
    obtain ⟨e, _, rfl⟩ := h
    exact Or.inr (Or.inr (Or.inr ⟨e.note, e.vel, e.ch, rfl⟩))

/-- Boolean recognizer for song-position-pointer messages. -/
def isSongposB : Msg → Bool
  | .songpos _ => true
  | _ => false

theorem tmRun_closed (cfg : TMConfig) :
    tmRun cfg =
      ⟨startedB (startPulse cfg) (totalPulses cfg),
       evRemaining (tmSchedule cfg) (totalPulses cfg),
       tmOut (startPulse cfg) cfg.midi_start_at_beat (tmSchedule cfg) (totalPulses cfg)⟩ :=
  tmLoop_closed _ _ _ _

theorem countP_tmOut (pred : Msg → Bool) (sp : ℤ) (msab : ℚ)
    (sched : List TMEvent) (n : Nat) :
    (tmOut sp msab sched n).countP (fun pm => pred pm.2) =
      ((List.range n).map (fun i => (pulseMsgs sp msab sched i).countP pred)).sum := by
  induction n with
  | zero => simp [tmOut]
  | succ n ih =>
    rw [tmOut_succ, List.countP_append, ih, List.range_succ, List.map_append,
      List.sum_append, List.countP_map]
    simp
    rfl

theorem countP_noteOns (pred : Msg → Bool)
    (hp : ∀ note vel ch, pred (Msg.noteOn note vel ch) = false) (l : List TMEvent) :
    (l.map (fun e => Msg.noteOn e.note e.vel e.ch)).countP pred = 0 := by
  rw [List.countP_eq_zero]
  intro m hm
  rw [List.mem_map] at hm
  obtain ⟨e, _, rfl⟩ := hm
  simp [hp]

theorem countP_mstart_pulseMsgs (sp : ℤ) (msab : ℚ) (sched : List TMEvent)
    (i : Nat) :
    (pulseMsgs sp msab sched i).countP (fun m => m == Msg.mstart) =
      if (i : ℤ) = sp then 1 else 0 := by
  unfold pulseMsgs
  rw [List.countP_append, List.countP_append,
    countP_noteOns _ (by intro n v c; rfl)]
  by_cases h : (i : ℤ) = sp
  · rw [startedB_self sp i h, decide_eq_true h]
    rw [if_pos h]
    by_cases hm : 0 < msab
    · by_cases hst : startedB sp (i + 1) = true <;> simp [hm, hst]
    · by_cases hst : startedB sp (i + 1) = true <;> simp [hm, hst]
  · rw [decide_eq_false h, if_neg h]
    by_cases hst : startedB sp (i + 1) = true <;> simp [hst]

theorem countP_songpos_pulseMsgs (sp : ℤ) (msab : ℚ) (sched : List TMEvent)
    (i : Nat) :
    (pulseMsgs sp msab sched i).countP (fun m => isSongposB m) =
      if ((i : ℤ) = sp ∧ 0 < msab) then 1 else 0 := by
  unfold pulseMsgs
  rw [List.countP_append, List.countP_append,
    countP_noteOns _ (by intro n v c; rfl)]
  by_cases h : (i : ℤ) = sp
  · rw [startedB_self sp i h, decide_eq_true h]
    by_cases hm : 0 < msab
    · by_cases hst : startedB sp (i + 1) = true <;> simp [h, hm, hst, isSongposB]
    · by_cases hst : startedB sp (i + 1) = true <;> simp [h, hm, hst, isSongposB]
  · rw [decide_eq_false h]
    by_cases hst : startedB sp (i + 1) = true <;> simp [h, hst, isSongposB]

theorem countP_clock_pulseMsgs (sp : ℤ) (msab : ℚ) (sched : List TMEvent)
    (i : Nat) :
    (pulseMsgs sp msab sched i).countP (fun m => m == Msg.clock) =
      if startedB sp (i + 1) = true then 1 else 0 := by
  unfold pulseMsgs
  rw [List.countP_append, List.countP_append,
    countP_noteOns _ (by intro n v c; rfl)]
  by_cases hf : (decide ((i : ℤ) = sp) && !startedB sp i) = true
  · by_cases hm : 0 < msab
    · by_cases hst : startedB sp (i + 1) = true <;> simp [hf, hm, hst]
    · by_cases hst : startedB sp (i + 1) = true <;> simp [hf, hm, hst]
  · by_cases hst : startedB sp (i + 1) = true <;> simp [hf, hst]

theorem sum_indicator_int (sp : ℤ) (n : Nat) :
    ((List.range n).map (fun i : Nat => if (i : ℤ) = sp then 1 else 0)).sum =
      if 0 ≤ sp ∧ sp < (n : ℤ) then 1 else 0 := by
  induction n with
  | zero =>
    rw [if_neg (by omega)]
    simp
  | succ n ih =>
    rw [List.range_succ, List.map_append, List.sum_append, ih]
    simp only [List.map_cons, List.map_nil, List.sum_cons, List.sum_nil]
    by_cases h1 : 0 ≤ sp ∧ sp < (n : ℤ)
    · have h2 : ¬((n : ℤ) = sp) := by omega
      rw [if_pos h1, if_neg h2, if_pos (by push_cast; omega)]
      norm_num
    · by_cases h2 : (n : ℤ) = sp
      · rw [if_neg h1, if_pos h2, if_pos (by push_cast; omega)]
        norm_num
      · rw [if_neg h1, if_neg h2, if_neg (by push_cast; omega)]
        norm_num

/-- C1: in `play_pattern_with_tracks_and_melody` with `midi_start_at_beat`
positive, no clock, start or stop message is issued at any pulse before
`start_pulse = floor(midi_start_at_beat*24)`; if `start_pulse` lies within
the run, the messages at that pulse begin with exactly one
song-position-pointer of position `floor(midi_start_at_beat*4)` immediately
followed by exactly one start, and a clock is sent at that pulse and at
every later pulse of the run. -/
theorem claim1_deferred_transport_start (cfg : TMConfig)
    (hs : 0 < cfg.midi_start_at_beat) :
    (∀ pm ∈ tmTrace cfg,
        (pm.2 = Msg.clock ∨ pm.2 = Msg.mstart ∨ pm.2 = Msg.mstop) →
        startPulse cfg ≤ (pm.1 : ℤ)) ∧
    (startPulse cfg < (totalPulses cfg : ℤ) →
      (∃ tail, msgsAt (tmTrace cfg) (startPulse cfg).toNat =
          Msg.songpos (pyInt (cfg.midi_start_at_beat * 4)) :: Msg.mstart :: tail) ∧
      (tmTrace cfg).countP (fun pm => pm.2 == Msg.mstart) = 1 ∧
      (tmTrace cfg).countP (fun pm => isSongposB pm.2) = 1 ∧
      (∀ p : Nat, startPulse cfg ≤ (p : ℤ) → p < totalPulses cfg →
        (msgsAt (tmTrace cfg) p).countP (fun m => m == Msg.clock) = 1)) := by
  have hsp0 : 0 ≤ startPulse cfg := by
    unfold startPulse
    have h24 : (0 : ℚ) ≤ cfg.midi_start_at_beat * 24 := by nlinarith
    rw [pyInt_of_nonneg h24]
    exact Int.le_floor.mpr (by exact_mod_cast h24)
  have htrace : tmTrace cfg =
      tmOut (startPulse cfg) cfg.midi_start_at_beat (tmSchedule cfg) (totalPulses cfg)
        ++ (if cfg.send_stop && startedB (startPulse cfg) (totalPulses cfg)
            then [(totalPulses cfg, Msg.mstop)] else []) := by
    unfold tmTrace
    rw [tmRun_closed]
  constructor
  · intro pm hpm hkind
    rw [htrace, List.mem_append] at hpm
    rcases hpm with hpm | hpm
    · obtain ⟨hlt, hmem⟩ := mem_tmOut hpm
      rcases mem_pulseMsgs_cases hmem with
        ⟨he, hieq⟩ | ⟨x, he, hieq, _, _⟩ | ⟨he, h0, hle⟩ | ⟨note, vel, ch, he⟩
      · omega
      · rcases hkind with hk | hk | hk <;> rw [he] at hk <;> exact absurd hk (by simp)
      · exact hle
      · rcases hkind with hk | hk | hk <;> rw [he] at hk <;> exact absurd hk (by simp)
    · split at hpm
      · next hcond =>
        rw [List.mem_singleton] at hpm
        subst hpm
        have hb := (Bool.and_eq_true _ _).mp hcond
        have hb2 := hb.2
        unfold startedB at hb2
        have hprop := of_decide_eq_true hb2
        simp only
        omega
      · exact absurd hpm (List.not_mem_nil pm)
  · intro hlt
    have hp0 : (((startPulse cfg).toNat : ℤ)) = startPulse cfg :=
      Int.toNat_of_nonneg hsp0
    have hp0N : (startPulse cfg).toNat < totalPulses cfg := by omega
    have hstop : ∀ p : Nat, p < totalPulses cfg →
        msgsAt (if cfg.send_stop && startedB (startPulse cfg) (totalPulses cfg)
          then [(totalPulses cfg, Msg.mstop)] else []) p = [] := by
      intro p hp
      split
      · unfold msgsAt
        have hne : (totalPulses cfg == p) = false := by
          rw [beq_eq_false_iff_ne]
          omega
        simp [hne]
      · simp [msgsAt]
    have hAt : ∀ p : Nat, p < totalPulses cfg →
        msgsAt (tmTrace cfg) p =
          pulseMsgs (startPulse cfg) cfg.midi_start_at_beat (tmSchedule cfg) p := by
      intro p hp
      rw [htrace, msgsAt_append, msgsAt_tmOut, if_pos hp, hstop p hp, List.append_nil]
    refine ⟨?_, ?_, ?_, ?_⟩
    · rw [hAt _ hp0N]
      unfold pulseMsgs
      rw [startedB_self _ _ hp0, decide_eq_true hp0]
      have hb1 : startedB (startPulse cfg) ((startPulse cfg).toNat + 1) = true := by
        unfold startedB
        exact decide_eq_true ⟨hsp0, by push_cast; omega⟩
      rw [hb1, if_pos hs]
      refine ⟨Msg.clock :: (dueAt (tmSchedule cfg) (startPulse cfg).toNat).map
        (fun e => Msg.noteOn e.note e.vel e.ch), ?_⟩
      simp
    · rw [htrace, List.countP_append]
      have hstopc :
          (if cfg.send_stop && startedB (startPulse cfg) (totalPulses cfg)
            then [(totalPulses cfg, Msg.mstop)] else []).countP
              (fun pm => pm.2 == Msg.mstart) = 0 := by
        split <;> simp
      rw [hstopc, countP_tmOut (fun m => m == Msg.mstart)]
      simp only [countP_mstart_pulseMsgs]
      rw [sum_indicator_int, if_pos ⟨hsp0, hlt⟩]
    · rw [htrace, List.countP_append]
      have hstopc :
          (if cfg.send_stop && startedB (startPulse cfg) (totalPulses cfg)
            then [(totalPulses cfg, Msg.mstop)] else []).countP
              (fun pm => isSongposB pm.2) = 0 := by
        split <;> simp [isSongposB]
      rw [hstopc, countP_tmOut (fun m => isSongposB m)]
      simp only [countP_songpos_pulseMsgs, hs, and_true]
      rw [sum_indicator_int, if_pos ⟨hsp0, hlt⟩]
    · intro p hp1 hp2
      rw [hAt p hp2, countP_clock_pulseMsgs]
      rw [if_pos (by unfold startedB; exact decide_eq_true ⟨hsp0, by push_cast; omega⟩)]

/-- A concrete `play_pattern_with_tracks_and_melody` call: 2 bars with MIDI
start deferred to beat 4 (start pulse 96 of 192). -/
def tmCfg1 : TMConfig :=
  ⟨2, 120, [], [⟨0, 60, some 100, none⟩], 0, 4, 0, true⟩

/-- Witness for C1 at `tmCfg1`: the hypothesis `0 < midi_start_at_beat`
holds at beat 4 and the theorem applies. -/
theorem claim1_witness :
    0 < tmCfg1.midi_start_at_beat ∧
    ((∀ pm ∈ tmTrace tmCfg1,
        (pm.2 = Msg.clock ∨ pm.2 = Msg.mstart ∨ pm.2 = Msg.mstop) →
        startPulse tmCfg1 ≤ (pm.1 : ℤ)) ∧
    (startPulse tmCfg1 < (totalPulses tmCfg1 : ℤ) →
      (∃ tail, msgsAt (tmTrace tmCfg1) (startPulse tmCfg1).toNat =
          Msg.songpos (pyInt (tmCfg1.midi_start_at_beat * 4)) :: Msg.mstart :: tail) ∧
      (tmTrace tmCfg1).countP (fun pm => pm.2 == Msg.mstart) = 1 ∧
      (tmTrace tmCfg1).countP (fun pm => isSongposB pm.2) = 1 ∧
      (∀ p : Nat, startPulse tmCfg1 ≤ (p : ℤ) → p < totalPulses tmCfg1 →
        (msgsAt (tmTrace tmCfg1) p).countP (fun m => m == Msg.clock) = 1))) :=
  ⟨by norm_num [tmCfg1],
   claim1_deferred_transport_start tmCfg1 (by norm_num [tmCfg1])⟩

/-- C8: the final transport stop is sent if and only if `send_stop` holds and
a start message was actually emitted during the run; a start is emitted iff
the start pulse falls inside the run; and when no start was sent the summary
reports that no MIDI Start was sent. -/
theorem claim8_stop_iff_start_sent (cfg : TMConfig) :
    ((∃ p, (p, Msg.mstop) ∈ tmTrace cfg) ↔
      (cfg.send_stop = true ∧ ∃ p, (p, Msg.mstart) ∈ tmTrace cfg)) ∧
    ((∃ p, (p, Msg.mstart) ∈ tmTrace cfg) ↔
      (0 ≤ startPulse cfg ∧ startPulse cfg < (totalPulses cfg : ℤ))) ∧
    ((¬ ∃ p, (p, Msg.mstart) ∈ tmTrace cfg) →
      tmStatus cfg = "(no MIDI Start sent - all notes before midi_start_at_beat)") := by
  have htrace : tmTrace cfg =
      tmOut (startPulse cfg) cfg.midi_start_at_beat (tmSchedule cfg) (totalPulses cfg)
        ++ (if cfg.send_stop && startedB (startPulse cfg) (totalPulses cfg)
            then [(totalPulses cfg, Msg.mstop)] else []) := by
    unfold tmTrace
    rw [tmRun_closed]
  have hstart_mem : (∃ p, (p, Msg.mstart) ∈ tmTrace cfg) ↔
      startedB (startPulse cfg) (totalPulses cfg) = true := by
    constructor
    · rintro ⟨p, hp⟩
      rw [htrace, List.mem_append] at hp
      rcases hp with hp | hp
      · obtain ⟨hlt, hmem⟩ := mem_tmOut hp
        rcases mem_pulseMsgs_cases hmem with
          ⟨he, hieq⟩ | ⟨x, he, _, _, _⟩ | ⟨he, _, _⟩ | ⟨n, v, c, he⟩
        · unfold startedB
          exact decide_eq_true (by simp only at hieq hlt; omega)
        · exact absurd he (by simp)
        · exact absurd he (by simp)
        · exact absurd he (by simp)
      · split at hp
        · rw [List.mem_singleton] at hp
          simp at hp
        · exact absurd hp (List.not_mem_nil _)
    · intro hb
      have hprop := of_decide_eq_true (show decide _ = true from hb)
      refine ⟨(startPulse cfg).toNat, ?_⟩
      rw [htrace, List.mem_append]
      left
      unfold tmOut
      rw [List.mem_flatMap]
      refine ⟨(startPulse cfg).toNat, ?_, ?_⟩
      · rw [List.mem_range]
        omega
      · rw [List.mem_map]
        refine ⟨Msg.mstart, ?_, rfl⟩
        have hp0 : (((startPulse cfg).toNat : ℤ)) = startPulse cfg :=
          Int.toNat_of_nonneg hprop.1
        unfold pulseMsgs
        rw [startedB_self _ _ hp0, decide_eq_true hp0]
        simp
  have hstop_mem : (∃ p, (p, Msg.mstop) ∈ tmTrace cfg) ↔
      (cfg.send_stop = true ∧ startedB (startPulse cfg) (totalPulses cfg) = true) := by
    constructor
    · rintro ⟨p, hp⟩
      rw [htrace, List.mem_append] at hp
      rcases hp with hp | hp
      · obtain ⟨hlt, hmem⟩ := mem_tmOut hp
        rcases mem_pulseMsgs_cases hmem with
          ⟨he, _⟩ | ⟨x, he, _, _, _⟩ | ⟨he, _, _⟩ | ⟨n, v, c, he⟩ <;>
          exact absurd he (by simp)
      · split at hp
        · next hcond =>
          exact (Bool.and_eq_true _ _).mp hcond
        · exact absurd hp (List.not_mem_nil _)
    · rintro ⟨h1, h2⟩
      refine ⟨totalPulses cfg, ?_⟩
      rw [htrace, List.mem_append]
      right
      rw [if_pos ((Bool.and_eq_true _ _).mpr ⟨h1, h2⟩)]
      exact List.mem_singleton.mpr rfl
  have hstartedB : (0 ≤ startPulse cfg ∧ startPulse cfg < (totalPulses cfg : ℤ)) ↔
      startedB (startPulse cfg) (totalPulses cfg) = true := by
    unfold startedB
    rw [decide_eq_true_eq]
  refine ⟨?_, ?_, ?_⟩
  · rw [hstop_mem, hstart_mem]
  · rw [hstart_mem, hstartedB]
  · intro hno
    rw [hstart_mem] at hno
    have hfalse : startedB (startPulse cfg) (totalPulses cfg) = false :=
      Bool.eq_false_iff.mpr hno
    unfold tmStatus
    rw [tmRun_closed]
    simp only [hfalse, Bool.and_false, Bool.false_eq_true, if_false]

/-! ### Other beat-indexed schedule builders (`play_pattern_with_melody`,
`play_pattern_with_loop`, parameter automation) -/

/-- One `note_schedule` entry of `play_pattern_with_melody`
(`(pulse_index, note, velocity, duration)`). -/
def melodyScheduleEntry (m : MelodyNote) : ℤ × ℤ × ℤ × ℚ :=
  (pyInt (m.beat * 24), m.note, m.vel.getD 100, m.dur.getD (1/10))

/-- A `loop_notes` entry `[beat_offset, note, velocity?]`. -/
structure LoopNote where
  beat_offset : ℚ
  note : ℤ
  vel : Option ℤ
deriving DecidableEq, Repr

/-- One `loop_schedule` entry of `play_pattern_with_loop`
(`(pulse_offset, note, velocity)`). -/
def loopScheduleEntry (l : LoopNote) : ℤ × ℤ × ℤ :=
  (pyInt (l.beat_offset * 24), l.note, l.vel.getD 100)

/-- One parameter automation schedule entry of
`play_pattern_with_parameter_automation` (`(pulse_index, value)`). -/
def paEntry (ev : ℚ × ℤ) : ℤ × ℤ :=
  (pyInt (ev.1 * 24), ev.2)

/-- C2: in `play_pattern_with_tracks_and_melody`, every melody note at beat
`b` is scheduled at pulse `floor((b + 4*preroll_bars)*24)` while every track
trigger at beat `b` is scheduled at pulse `floor(b*24)` — the preroll shift
applies to melody notes only, never to track triggers. -/
theorem claim2_preroll_shifts_only_melody
    (track_triggers : List Trigger) (melody_notes : List MelodyNote)
    (preroll_bars : ℚ) (channel : ℤ)
    (hp : 0 ≤ preroll_bars)
    (ht : ∀ t ∈ track_triggers, 0 ≤ t.beat)
    (hm : ∀ m ∈ melody_notes, 0 ≤ m.beat) :
    (tmScheduleRaw track_triggers melody_notes preroll_bars channel).map
        (fun e => e.pulse) =
      track_triggers.map (fun t => ⌊t.beat * 24⌋) ++
      melody_notes.map (fun m => ⌊(m.beat + 4 * preroll_bars) * 24⌋) := by
  unfold tmScheduleRaw
  rw [List.map_append, List.map_map, List.map_map]
  congr 1
  · apply List.map_congr_left
    intro t htt
    show (trigEntry t).pulse = ⌊t.beat * 24⌋
    unfold trigEntry
    exact pyInt_of_nonneg (by nlinarith [ht t htt])
  · apply List.map_congr_left
    intro m hmm
    show (melEntry preroll_bars channel m).pulse = ⌊(m.beat + 4 * preroll_bars) * 24⌋
    unfold melEntry
    rw [pyInt_of_nonneg (by nlinarith [hm m hmm])]
    ring_nf
  
/-- Witness for C2: a melody note at beat 0 with `preroll_bars = 1` lands on
pulse 96 while a simultaneous track trigger at beat 0 stays at pulse 0. -/
theorem claim2_witness :
    (tmScheduleRaw [⟨0, 1, some 100, none⟩] [⟨0, 60, some 100, none⟩] 1 0).map
        (fun e => e.pulse) = [0, 96] := by
  have h := claim2_preroll_shifts_only_melody [⟨0, 1, some 100, none⟩]
    [⟨0, 60, some 100, none⟩] 1 0 (by norm_num)
    (by intro t htt; rw [List.mem_singleton] at htt; subst htt; norm_num)
    (by intro m hmm; rw [List.mem_singleton] at hmm; subst hmm; norm_num)
  rw [h]
  norm_num

/-- C5: every beat coordinate in any event list (track triggers, melody
notes, loop offsets, parameter automation) is converted to a pulse by
truncation `int(b*24)`, which on non-negative beats equals `floor(b*24)`;
beats with equal floors therefore coincide, e.g. beats 0.03 and 0.0 both map
to pulse 0. -/
theorem claim5_pulse_is_floor :
    (∀ b : ℚ, 0 ≤ b → pyInt (b * 24) = ⌊b * 24⌋) ∧
    (∀ t : Trigger, 0 ≤ t.beat → (trigEntry t).pulse = ⌊t.beat * 24⌋) ∧
    (∀ m : MelodyNote, 0 ≤ m.beat → (melodyScheduleEntry m).1 = ⌊m.beat * 24⌋) ∧
    (∀ l : LoopNote, 0 ≤ l.beat_offset →
      (loopScheduleEntry l).1 = ⌊l.beat_offset * 24⌋) ∧
    (∀ ev : ℚ × ℤ, 0 ≤ ev.1 → (paEntry ev).1 = ⌊ev.1 * 24⌋) ∧
    (∀ b b' : ℚ, 0 ≤ b → 0 ≤ b' → ⌊b * 24⌋ = ⌊b' * 24⌋ →
      pyInt (b * 24) = pyInt (b' * 24)) ∧
    pyInt ((3/100 : ℚ) * 24) = 0 ∧ pyInt ((0 : ℚ) * 24) = 0 := by
  have base : ∀ b : ℚ, 0 ≤ b → pyInt (b * 24) = ⌊b * 24⌋ := by
    intro b hb
    exact pyInt_of_nonneg (by nlinarith)
  refine ⟨base, ?_, ?_, ?_, ?_, ?_,
    by rw [base (3/100) (by norm_num)]; norm_num,
    by rw [base 0 (by norm_num)]; norm_num⟩
  · intro t htt
    exact base t.beat htt
  · intro m hmm
    exact base m.beat hmm
  · intro l hl
    exact base l.beat_offset hl
  · intro ev hev
    exact base ev.1 hev
  · intro b b' hb hb' heq
    rw [base b hb, base b' hb', heq]

/-- C3: for every parameter resolving to an NRPN address,
`send_parameter_change` emits exactly the 4-message burst CC99=MSB,
CC98=LSB, CC6=value, CC38=0 on the given channel, in that fixed order; a
CC-typed parameter yields exactly one control change with its controller
number and the value. -/
theorem claim3_wire_encoding (param_name : String) (value channel : ℤ) :
    (∀ msb lsb lo hi,
      get_parameter_info param_name = some (.nrpn msb lsb lo hi) →
      send_parameter_change param_name value channel =
        .ok [Msg.cc 99 msb channel, Msg.cc 98 lsb channel,
             Msg.cc 6 value channel, Msg.cc 38 0 channel]) ∧
    (∀ c lo hi,
      get_parameter_info param_name = some (.cc c lo hi) →
      send_parameter_change param_name value channel =
        .ok [Msg.cc c value channel]) := by
  constructor
  · intro msb lsb lo hi h
    unfold send_parameter_change
    rw [h]
  · intro c lo hi h
    unfold send_parameter_change
    rw [h]

/-- Witness for C3: `filter_resonance` resolves to NRPN (1, 21) and yields
the 4-message burst; `filter_cutoff` resolves to CC 74 and yields one
message. -/
theorem claim3_witness :
    send_parameter_change "filter_resonance" 64 0 =
      .ok [Msg.cc 99 1 0, Msg.cc 98 21 0, Msg.cc 6 64 0, Msg.cc 38 0 0] ∧
    send_parameter_change "filter_cutoff" 100 2 = .ok [Msg.cc 74 100 2] :=
  ⟨(claim3_wire_encoding "filter_resonance" 64 0).1 1 21 0 127 (by decide),
   (claim3_wire_encoding "filter_cutoff" 100 2).2 74 0 127 (by decide)⟩

/-! ### `play_pattern_with_parameter_automation` (server.py 2335-2431) -/

/-- Arguments of one `play_pattern_with_parameter_automation` call; the
automation dict is an insertion-ordered association list. -/
structure PAConfig where
  bars : ℚ
  bpm : ℚ
  track_triggers : List Trigger
  parameter_automation : List (String × List (ℚ × ℤ))
  send_clock : Bool
  send_stop : Bool
  channel : ℤ

/-- The value-validation loop over one parameter's events: the first failing
value's error message, if any. -/
def eventsValidationError (name : String) : List (ℚ × ℤ) → Option String
  | [] => none
  | ev :: rest =>
    let r := validate_parameter name ev.2
    if r.1 then eventsValidationError name rest else some r.2

/-- The up-front validation loop of `play_pattern_with_parameter_automation`:
unknown names are reported first for each entry, then each value is checked
with `validate_parameter`; the first failure wins. -/
def paramsValidationError : List (String × List (ℚ × ℤ)) → Option String
  | [] => none
  | p :: rest =>
    if get_parameter_info p.1 = none then
      some ("Unknown parameter \x27" ++ p.1 ++ "\x27")
    else
      match eventsValidationError p.1 p.2 with
      | some e => some e
      | none => paramsValidationError rest

/-- One `trigger_schedule` entry of the automation tool
(`(pulse_index, note, velocity)` with `note = track - 1`). -/
def paTrigEntry (t : Trigger) : ℤ × ℤ × ℤ :=
  (pyInt (t.beat * 24), t.track - 1, t.vel.getD 100)

/-- The per-parameter automation schedules, each independently
pulse-converted and sorted. -/
def paSchedules (pa : List (String × List (ℚ × ℤ))) :
    List (String × List (ℤ × ℤ)) :=
  pa.map (fun p => (p.1, stableSortKey (fun e => e.1) (p.2.map paEntry)))

/-- Body of the automation tool's `for i in range(total_pulses)` loop:
clock (if requested), due track triggers, then for each parameter in dict
order its due parameter changes. -/
def paStep (channel : ℤ) (send_clock : Bool) (i : Nat)
    (s : List (ℤ × ℤ × ℤ) × List (String × List (ℤ × ℤ)) × List Msg) :
    List (ℤ × ℤ × ℤ) × List (String × List (ℤ × ℤ)) × List Msg :=
  let clockMsgs : List Msg := if send_clock then [Msg.clock] else []
  let dueT := s.1.takeWhile (fun e => decide (e.1 = (i : ℤ)))
  let restT := s.1.dropWhile (fun e => decide (e.1 = (i : ℤ)))
  let trigMsgs := dueT.map (fun e => Msg.noteOn e.2.1 e.2.2 0)
  let paramMsgs := s.2.1.flatMap (fun p =>
    (p.2.takeWhile (fun ev => decide (ev.1 = (i : ℤ)))).flatMap
      (fun ev => sendParamMsgs p.1 ev.2 channel))
  let restP := s.2.1.map (fun p =>
    (p.1, p.2.dropWhile (fun ev => decide (ev.1 = (i : ℤ)))))
  (restT, restP, s.2.2 ++ clockMsgs ++ trigMsgs ++ paramMsgs)

/-- `play_pattern_with_parameter_automation`: validation happens before
anything is sent; on success the transport start (if requested), the pulse
loop's messages and the optional stop are emitted. The returned string is
the error text on failure, or the status fragment of the summary. -/
def play_pattern_with_parameter_automation (cfg : PAConfig) : List Msg × String :=
  match paramsValidationError cfg.parameter_automation with
  | some e => ([], "Error: " ++ e)
  | none =>
    let total := (pyInt (cfg.bars * 96)).toNat
    let trigs := stableSortKey (fun e : ℤ × ℤ × ℤ => e.1)
      (cfg.track_triggers.map paTrigEntry)
    let startMsgs : List Msg := if cfg.send_clock then [Msg.mstart] else []
    let st := (List.range total).foldl
      (fun s i => paStep cfg.channel cfg.send_clock i s)
      (trigs, paSchedules cfg.parameter_automation, [])
    let stopMsgs : List Msg :=
      if cfg.send_clock && cfg.send_stop then [Msg.mstop] else []
    (startMsgs ++ st.2.2 ++ stopMsgs,
     if cfg.send_clock && cfg.send_stop then "and stopped"
     else if cfg.send_clock then "(still running)"
     else "(no transport control)")

theorem eventsValidationError_none (name : String) (evs : List (ℚ × ℤ))
    (h : eventsValidationError name evs = none) :
    ∀ ev ∈ evs, (validate_parameter name ev.2).1 = true := by
  induction evs with
  | nil => intro ev hev; exact absurd hev (List.not_mem_nil ev)
  | cons e rest ih =>
    intro ev hev
    unfold eventsValidationError at h
    by_cases hr : (validate_parameter name e.2).1 = true
    · rw [if_pos hr] at h
      rcases List.mem_cons.mp hev with rfl | hmem
      · exact hr
      · exact ih h ev hmem
    · rw [if_neg hr] at h
      exact absurd h (by simp)

theorem eventsValidationError_some (name : String) (evs : List (ℚ × ℤ))
    (e : String) (h : eventsValidationError name evs = some e) :
    ∃ ev ∈ evs, validate_parameter name ev.2 = (false, e) := by
  induction evs with
  | nil => exact absurd h (by simp [eventsValidationError])
  | cons ev0 rest ih =>
    unfold eventsValidationError at h
    by_cases hr : (validate_parameter name ev0.2).1 = true
    · rw [if_pos hr] at h
      obtain ⟨ev, hmem, hv⟩ := ih h
      exact ⟨ev, List.mem_cons_of_mem _ hmem, hv⟩
    · rw [if_neg hr] at h
      refine ⟨ev0, List.mem_cons_self _ _, ?_⟩
      have h2 : (validate_parameter name ev0.2).2 = e := Option.some.inj h
      have h1 : (validate_parameter name ev0.2).1 = false := Bool.eq_false_iff.mpr hr
      calc validate_parameter name ev0.2
            = ((validate_parameter name ev0.2).1, (validate_parameter name ev0.2).2) := rfl
          _ = (false, e) := by rw [h1, h2]

theorem paramsValidationError_none (pa : List (String × List (ℚ × ℤ)))
    (h : paramsValidationError pa = none) :
    ∀ p ∈ pa, get_parameter_info p.1 ≠ none ∧
      ∀ ev ∈ p.2, (validate_parameter p.1 ev.2).1 = true := by
  induction pa with
  | nil => intro p hp; exact absurd hp (List.not_mem_nil p)
  | cons p0 rest ih =>
    intro p hp
    unfold paramsValidationError at h
    by_cases hinfo : get_parameter_info p0.1 = none
    · rw [if_pos hinfo] at h
      exact absurd h (by simp)
    · rw [if_neg hinfo] at h
      rcases hev : eventsValidationError p0.1 p0.2 with _ | e
      · rw [hev] at h
        rcases List.mem_cons.mp hp with rfl | hmem
        · exact ⟨hinfo, eventsValidationError_none _ _ hev⟩
        · exact ih h p hmem
      · rw [hev] at h
        exact absurd h (by simp)

theorem paramsValidationError_some (pa : List (String × List (ℚ × ℤ)))
    (e : String) (h : paramsValidationError pa = some e) :
    ∃ p ∈ pa,
      (get_parameter_info p.1 = none ∧
        e = "Unknown parameter \x27" ++ p.1 ++ "\x27") ∨
      ∃ ev ∈ p.2, validate_parameter p.1 ev.2 = (false, e) := by
  induction pa with
  | nil => exact absurd h (by simp [paramsValidationError])
  | cons p0 rest ih =>
    unfold paramsValidationError at h
    by_cases hinfo : get_parameter_info p0.1 = none
    · rw [if_pos hinfo] at h
      refine ⟨p0, List.mem_cons_self _ _, Or.inl ⟨hinfo, ?_⟩⟩
      injection h with h2
      exact h2.symm
    · rw [if_neg hinfo] at h
      rcases hev : eventsValidationError p0.1 p0.2 with _ | e'
      · rw [hev] at h
        obtain ⟨p, hmem, hcase⟩ := ih h
        exact ⟨p, List.mem_cons_of_mem _ hmem, hcase⟩
      · rw [hev] at h
        obtain ⟨ev, hmem, hv⟩ := eventsValidationError_some _ _ _ hev
        have he : e' = e := by injection h with h2
        refine ⟨p0, List.mem_cons_self _ _, Or.inr ⟨ev, hmem, ?_⟩⟩
        rw [hv, he]

/-- C7: if any automated parameter name is unknown or any automation value
is out of range, `play_pattern_with_parameter_automation` returns a single
error naming the offending parameter or value and sends no MIDI message at
all — validation completes before the first send, so no partial
extended-parameter burst can occur. -/
theorem claim7_validation_before_any_send (cfg : PAConfig)
    (h : ∃ p ∈ cfg.parameter_automation,
      get_parameter_info p.1 = none ∨
        ∃ ev ∈ p.2, (validate_parameter p.1 ev.2).1 = false) :
    (play_pattern_with_parameter_automation cfg).1 = [] ∧
    ∃ e, (play_pattern_with_parameter_automation cfg).2 = "Error: " ++ e ∧
      ∃ p ∈ cfg.parameter_automation,
        (get_parameter_info p.1 = none ∧
          e = "Unknown parameter \x27" ++ p.1 ++ "\x27") ∨
        ∃ ev ∈ p.2, validate_parameter p.1 ev.2 = (false, e) := by
  have hne : paramsValidationError cfg.parameter_automation ≠ none := by
    intro hnone
    obtain ⟨p, hp, hbad⟩ := h
    have hok := paramsValidationError_none _ hnone p hp
    rcases hbad with hbad | ⟨ev, hev, hbad⟩
    · exact hok.1 hbad
    · rw [hok.2 ev hev] at hbad
      exact absurd hbad (by simp)
  obtain ⟨e, he⟩ := Option.ne_none_iff_exists'.mp hne
  unfold play_pattern_with_parameter_automation
  rw [he]
  exact ⟨rfl, e, rfl, paramsValidationError_some _ _ he⟩

/-- A concrete automation call whose single value 200 for `filter_cutoff`
is out of the declared 0-127 range. -/
def paCfgBad : PAConfig :=
  ⟨4, 120, [], [("filter_cutoff", [((0 : ℚ), 200)])], true, true, 0⟩

/-- Witness for C7: the out-of-range input exists and the call sends
nothing. -/
theorem claim7_witness :
    (∃ p ∈ paCfgBad.parameter_automation,
      get_parameter_info p.1 = none ∨
        ∃ ev ∈ p.2, (validate_parameter p.1 ev.2).1 = false) ∧
    (play_pattern_with_parameter_automation paCfgBad).1 = [] :=
  ⟨by decide, (claim7_validation_before_any_send paCfgBad (by decide)).1⟩

/-! ### `send_filter_sweep` / `send_parameter_sweep` (server.py 2026-2076,
2219-2271). `math.exp` is modelled as an uninterpreted function `mexp`;
both tools apply it to identical arguments. -/

/-- The sweep value list of `send_filter_sweep`: `steps+1` samples of the
selected curve, each rounded with Python `round`; an unknown curve name hits
an unbound `value` (`NameError`), modelled as `none`. -/
def filterSweepValues (mexp : ℚ → ℚ) (start_value end_value : ℤ)
    (curve : String) (steps : Nat) : Option (List ℤ) :=
  if curve = "linear" then
    some ((List.range (steps + 1)).map (fun i : Nat =>
      let t : ℚ := (i : ℚ) / steps
      pyRound ((start_value : ℚ) + ((end_value : ℚ) - start_value) * t)))
  else if curve = "exponential" then
    some ((List.range (steps + 1)).map (fun i : Nat =>
      let t : ℚ := (i : ℚ) / steps
      pyRound ((start_value : ℚ) + ((end_value : ℚ) - start_value) *
        (1 - mexp (-3 * t)))))
  else if curve = "logarithmic" then
    some ((List.range (steps + 1)).map (fun i : Nat =>
      let t : ℚ := (i : ℚ) / steps
      pyRound ((start_value : ℚ) + ((end_value : ℚ) - start_value) *
        mexp (3 * (t - 1)))))
  else none

/-- The sweep value list of `send_parameter_sweep`: textually the same
computation as `filterSweepValues`. -/
def parameterSweepValues (mexp : ℚ → ℚ) (start_value end_value : ℤ)
    (curve : String) (steps : Nat) : Option (List ℤ) :=
  if curve = "linear" then
    some ((List.range (steps + 1)).map (fun i : Nat =>
      let t : ℚ := (i : ℚ) / steps
      pyRound ((start_value : ℚ) + ((end_value : ℚ) - start_value) * t)))
  else if curve = "exponential" then
    some ((List.range (steps + 1)).map (fun i : Nat =>
      let t : ℚ := (i : ℚ) / steps
      pyRound ((start_value : ℚ) + ((end_value : ℚ) - start_value) *
        (1 - mexp (-3 * t)))))
  else if curve = "logarithmic" then
    some ((List.range (steps + 1)).map (fun i : Nat =>
      let t : ℚ := (i : ℚ) / steps
      pyRound ((start_value : ℚ) + ((end_value : ℚ) - start_value) *
        mexp (3 * (t - 1)))))
  else none

/-- Wire trace of `send_filter_sweep`: every value goes out as CC 74 (the
hardcoded filter cutoff controller) on the given channel. -/
def send_filter_sweep (mexp : ℚ → ℚ) (start_value end_value : ℤ)
    (duration_sec : ℚ) (curve : String) (steps : Nat) (channel : ℤ) : List Msg :=
  match filterSweepValues mexp start_value end_value curve steps with
  | none => []
  | some vals => vals.map (fun v => Msg.cc 74 v channel)

/-- Wire trace of `send_parameter_sweep`: both endpoint values are validated
first (nothing is sent on failure), then every value goes out through
`send_parameter_change` for the named parameter. -/
def send_parameter_sweep (mexp : ℚ → ℚ) (parameter : String)
    (start_value end_value : ℤ) (duration_sec : ℚ) (curve : String)
    (steps : Nat) (channel : ℤ) : List Msg :=
  if (validate_parameter parameter start_value).1 = false then []
  else if (validate_parameter parameter end_value).1 = false then []
  else
    match parameterSweepValues mexp start_value end_value curve steps with
    | none => []
    | some vals => vals.flatMap (fun v => sendParamMsgs parameter v channel)

theorem flatMap_singleton_eq_map {α β : Type} (f : α → β) (l : List α) :
    l.flatMap (fun x => [f x]) = l.map f := by
  induction l with
  | nil => rfl
  | cons x xs ih => simp [List.flatMap_cons, ih]

/-- C10: for identical inputs with schema-legal endpoint values, a legal
curve name and a positive step count, `send_parameter_sweep` on
`filter_cutoff` and `send_filter_sweep` put exactly the same wire messages
on the port: `steps+1` control changes with controller 74 on the same
channel, identical rounded values in identical order. -/
theorem claim10_sweep_refinement (mexp : ℚ → ℚ) (s e : ℤ) (dur : ℚ)
    (curve : String) (steps : Nat) (ch : ℤ)
    (hs0 : 0 ≤ s) (hs1 : s ≤ 127) (he0 : 0 ≤ e) (he1 : e ≤ 127)
    (hst : 0 < steps)
    (hc : curve = "linear" ∨ curve = "exponential" ∨ curve = "logarithmic") :
    send_parameter_sweep mexp "filter_cutoff" s e dur curve steps ch =
      send_filter_sweep mexp s e dur curve steps ch ∧
    (send_filter_sweep mexp s e dur curve steps ch).length = steps + 1 ∧
    (∀ m ∈ send_filter_sweep mexp s e dur curve steps ch,
      ∃ v, m = Msg.cc 74 v ch) := by
  have hsv : validate_parameter "filter_cutoff" s = (true, "") := by
    unfold validate_parameter
    show (if (0 : ℤ) ≤ s ∧ s ≤ 127 then ((true : Bool), "") else _) = _
    rw [if_pos ⟨hs0, hs1⟩]
  have hev : validate_parameter "filter_cutoff" e = (true, "") := by
    unfold validate_parameter
    show (if (0 : ℤ) ≤ e ∧ e ≤ 127 then ((true : Bool), "") else _) = _
    rw [if_pos ⟨he0, he1⟩]
  have hvals : parameterSweepValues mexp s e curve steps =
      filterSweepValues mexp s e curve steps := rfl
  have hsome : ∃ vals, filterSweepValues mexp s e curve steps = some vals ∧
      vals.length = steps + 1 := by
    rcases hc with hc | hc | hc
    · subst hc
      unfold filterSweepValues
      rw [if_pos rfl]
      exact ⟨_, rfl, by rw [List.length_map, List.length_range]⟩
    · subst hc
      unfold filterSweepValues
      rw [if_neg (by decide), if_pos rfl]
      exact ⟨_, rfl, by rw [List.length_map, List.length_range]⟩
    · subst hc
      unfold filterSweepValues
      rw [if_neg (by decide), if_neg (by decide), if_pos rfl]
      exact ⟨_, rfl, by rw [List.length_map, List.length_range]⟩
  obtain ⟨vals, hvs, hlen⟩ := hsome
  have hmsg : ∀ v c, sendParamMsgs "filter_cutoff" v c = [Msg.cc 74 v c] := by
    intro v c
    rfl
  refine ⟨?_, ?_, ?_⟩
  · unfold send_parameter_sweep send_filter_sweep
    rw [hsv, hev, hvals, hvs]
    simp only [Bool.true_eq_false, if_false]
    rw [show (fun v => sendParamMsgs "filter_cutoff" v ch) =
      (fun v => [Msg.cc 74 v ch]) from funext (fun v => hmsg v ch)]
    exact flatMap_singleton_eq_map _ vals
  · unfold send_filter_sweep
    rw [hvs]
    simp [hlen]
  · intro m hm
    unfold send_filter_sweep at hm
    rw [hvs] at hm
    simp only [List.mem_map] at hm
    obtain ⟨v, _, rfl⟩ := hm
    exact ⟨v, rfl⟩

/-- Witness for C10 at a concrete linear sweep on channel 0. -/
theorem claim10_witness :
    ((0 : ℤ) ≤ 0 ∧ (0 : ℤ) ≤ 127 ∧ (0 : ℤ) ≤ 127 ∧ (127 : ℤ) ≤ 127 ∧
      0 < 2 ∧ "linear" = "linear") ∧
    send_parameter_sweep (fun q => q) "filter_cutoff" 0 127 1 "linear" 2 0 =
      send_filter_sweep (fun q => q) 0 127 1 "linear" 2 0 :=
  ⟨⟨by decide, by decide, by decide, by decide, by decide, rfl⟩,
   (claim10_sweep_refinement (fun q => q) 0 127 1 "linear" 2 0
      (by decide) (by decide) (by decide) (by decide) (by decide)
      (Or.inl rfl)).1⟩

/-! ### ADSR envelopes (`send_filter_envelope` server.py 2078-2135,
`send_parameter_envelope` server.py 2273-2333) -/

theorem pyRound_mono {q q' : ℚ} (h : q ≤ q') : pyRound q ≤ pyRound q' := by
  have hf : ⌊q⌋ ≤ ⌊q'⌋ := Int.floor_le_floor h
  rcases eq_or_lt_of_le hf with heq | hlt
  · unfold pyRound
    rw [← heq]
    have hr : q - (⌊q⌋ : ℚ) ≤ q' - (⌊q⌋ : ℚ) := by linarith
    split_ifs <;> first | omega | linarith | simp_all
  · have h1 : pyRound q ≤ ⌊q⌋ + 1 := by
      unfold pyRound
      split_ifs <;> omega
    have h2 : (⌊q'⌋ : ℤ) ≤ pyRound q' := by
      unfold pyRound
      split_ifs <;> omega
    omega

/-- The ADSR stage list `(interval_seconds, value)` both envelope tools
build: `steps_per_stage+1` attack points 0→127, `steps_per_stage` decay
points 127→sustain (the shared boundary point excluded), one zero-interval
sustain point, `steps_per_stage` release points sustain→0, every value
rounded with Python `round`. -/
def adsrStages (attack_sec decay_sec : ℚ) (sustain_level : ℤ)
    (release_sec : ℚ) (steps_per_stage : Nat) : List (ℚ × ℤ) :=
  let attack_interval := attack_sec / steps_per_stage
  let decay_interval := decay_sec / steps_per_stage
  let release_interval := release_sec / steps_per_stage
  ((List.range (steps_per_stage + 1)).map (fun i : Nat =>
    let t : ℚ := (i : ℚ) / steps_per_stage
    (attack_interval, pyRound (127 * t))))
  ++ ((List.range' 1 steps_per_stage).map (fun i : Nat =>
    let t : ℚ := (i : ℚ) / steps_per_stage
    (decay_interval, pyRound (127 + ((sustain_level : ℚ) - 127) * t))))
  ++ [((0 : ℚ), sustain_level)]
  ++ ((List.range' 1 steps_per_stage).map (fun i : Nat =>
    let t : ℚ := (i : ℚ) / steps_per_stage
    (release_interval, pyRound ((sustain_level : ℚ) * (1 - t)))))

/-- Wire trace of `send_filter_envelope`: every stage value goes out as
CC 74 on the given channel. -/
def send_filter_envelope (attack_sec decay_sec : ℚ) (sustain_level : ℤ)
    (release_sec : ℚ) (steps_per_stage : Nat) (channel : ℤ) : List Msg :=
  (adsrStages attack_sec decay_sec sustain_level release_sec
    steps_per_stage).map (fun st => Msg.cc 74 st.2 channel)

/-- Wire trace of `send_parameter_envelope`: the sustain level is validated
first (nothing is sent on failure), then every stage value goes out through
`send_parameter_change`. -/
def send_parameter_envelope (parameter : String) (attack_sec decay_sec : ℚ)
    (sustain_level : ℤ) (release_sec : ℚ) (steps_per_stage : Nat)
    (channel : ℤ) : List Msg :=
  if (validate_parameter parameter sustain_level).1 = false then []
  else
    (adsrStages attack_sec decay_sec sustain_level release_sec
      steps_per_stage).flatMap (fun st => sendParamMsgs parameter st.2 channel)

theorem range'_one_getLast (n : Nat) (hn : 0 < n) :
    (List.range' 1 n).getLast? = some n := by
  obtain ⟨m, rfl⟩ : ∃ m, n = m + 1 := ⟨n - 1, by omega⟩
  rw [List.range'_concat, List.getLast?_concat]
  congr 1
  omega

theorem pyRound_zero : pyRound (0 : ℚ) = 0 := by
  have h := pyRound_intCast 0
  simpa using h

/-- C6: the generated ADSR stage sequence decomposes into `n+1` attack
points that rise from exactly 0 to exactly 127, `n` decay points ending
exactly at the sustain level (the shared 127 point excluded), one sustain
point with value `sustain_level` and zero interval, and `n` release points
ending exactly at 0; every emitted value is a nearest-integer rounding of
the exact curve value. -/
theorem claim6_adsr_stage_structure (attack_sec decay_sec : ℚ)
    (sustain_level : ℤ) (release_sec : ℚ) (n : Nat) (hn : 0 < n) :
    ∃ A D R : List (ℚ × ℤ),
      adsrStages attack_sec decay_sec sustain_level release_sec n =
        A ++ D ++ [((0 : ℚ), sustain_level)] ++ R ∧
      A.length = n + 1 ∧ D.length = n ∧ R.length = n ∧
      A.head? = some (attack_sec / n, 0) ∧
      A.getLast? = some (attack_sec / n, 127) ∧
      D.getLast? = some (decay_sec / n, sustain_level) ∧
      R.getLast? = some (release_sec / n, 0) ∧
      List.Chain' (fun a b : ℚ × ℤ => a.2 ≤ b.2) A ∧
      (∀ st ∈ adsrStages attack_sec decay_sec sustain_level release_sec n,
        ∃ q : ℚ, st.2 = pyRound q ∧ |(st.2 : ℚ) - q| ≤ 1/2) := by
  have hn0 : ((n : ℚ)) ≠ 0 := by positivity
  have hnpos : (0 : ℚ) < (n : ℚ) := by positivity
  refine ⟨(List.range (n + 1)).map (fun i : Nat =>
      (attack_sec / n, pyRound (127 * ((i : ℚ) / n)))),
    (List.range' 1 n).map (fun i : Nat =>
      (decay_sec / n, pyRound (127 + ((sustain_level : ℚ) - 127) * ((i : ℚ) / n)))),
    (List.range' 1 n).map (fun i : Nat =>
      (release_sec / n, pyRound ((sustain_level : ℚ) * (1 - (i : ℚ) / n)))),
    rfl, ?_, ?_, ?_, ?_, ?_, ?_, ?_, ?_, ?_⟩
  · rw [List.length_map, List.length_range]
  · rw [List.length_map, List.length_range']
  · rw [List.length_map, List.length_range']
  · rw [List.range_succ_eq_map]
    simp only [List.map_cons, List.head?_cons]
    norm_num [pyRound_zero]
  · rw [List.range_succ, List.map_append, List.map_cons, List.map_nil,
      List.getLast?_concat]
    rw [div_self hn0]
    norm_num
    have h := pyRound_intCast 127
    push_cast at h
    rw [h]
  · rw [show (List.range' 1 n).map (fun i : Nat =>
        (decay_sec / n, pyRound (127 + ((sustain_level : ℚ) - 127) * ((i : ℚ) / n)))) =
      (List.range' 1 n).map ((fun i : Nat =>
        (decay_sec / n, pyRound (127 + ((sustain_level : ℚ) - 127) * ((i : ℚ) / n))))) from rfl]
    obtain ⟨m, rfl⟩ : ∃ m, n = m + 1 := ⟨n - 1, by omega⟩
    rw [List.range'_concat, List.map_append, List.map_cons, List.map_nil,
      List.getLast?_concat]
    rw [show ((1 + 1 * m : Nat) : ℚ) = ((m + 1 : Nat) : ℚ) by push_cast; ring]
    rw [div_self hn0]
    rw [show (127 + ((sustain_level : ℚ) - 127) * 1) = ((sustain_level : ℤ) : ℚ) by
      push_cast; ring]
    rw [pyRound_intCast]
  · obtain ⟨m, rfl⟩ : ∃ m, n = m + 1 := ⟨n - 1, by omega⟩
    rw [List.range'_concat, List.map_append, List.map_cons, List.map_nil,
      List.getLast?_concat]
    rw [show ((1 + 1 * m : Nat) : ℚ) = ((m + 1 : Nat) : ℚ) by push_cast; ring]
    rw [div_self hn0]
    norm_num [pyRound_zero]
  · rw [List.chain'_map]
    rw [List.chain'_range_succ]
    intro m hm
    show pyRound _ ≤ pyRound _
    apply pyRound_mono
    have hdiv : ((m : ℚ)) / n ≤ ((m + 1 : Nat) : ℚ) / n := by
      apply div_le_div_of_nonneg_right ?_ hnpos.le
      push_cast
      linarith
    nlinarith [hdiv]
  · intro st hst
    unfold adsrStages at hst
    simp only [List.mem_append, List.mem_map, List.mem_singleton] at hst
    rcases hst with ((⟨i, _, rfl⟩ | ⟨i, _, rfl⟩) | rfl) | ⟨i, _, rfl⟩
    · exact ⟨_, rfl, pyRound_near _⟩
    · exact ⟨_, rfl, pyRound_near _⟩
    · refine ⟨(sustain_level : ℚ), (pyRound_intCast sustain_level).symm, ?_⟩
      simp
    · exact ⟨_, rfl, pyRound_near _⟩

/-- Witness for C6 at the spec's example envelope
`ADSR(0.5, 0.3, 64, 1.0, steps=20)`. -/
theorem claim6_witness :
    0 < 20 ∧
    (∃ A D R : List (ℚ × ℤ),
      adsrStages (1/2) (3/10) 64 1 20 =
        A ++ D ++ [((0 : ℚ), 64)] ++ R ∧
      A.length = 21 ∧ D.length = 20 ∧ R.length = 20 ∧
      A.head? = some ((1/2 : ℚ) / 20, 0) ∧
      A.getLast? = some ((1/2 : ℚ) / 20, 127) ∧
      D.getLast? = some ((3/10 : ℚ) / 20, 64) ∧
      R.getLast? = some ((1 : ℚ) / 20, 0) ∧
      List.Chain' (fun a b : ℚ × ℤ => a.2 ≤ b.2) A ∧
      (∀ st ∈ adsrStages (1/2) (3/10) 64 1 20,
        ∃ q : ℚ, st.2 = pyRound q ∧ |(st.2 : ℚ) - q| ≤ 1/2)) :=
  ⟨by norm_num,
   by
    have h := claim6_adsr_stage_structure (1/2) (3/10) 64 1 20 (by norm_num)
    norm_num at h ⊢
    exact h⟩

/-! ### Automation looping (tests/test_automation_looping.py) -/

/-- One event tuple of the looping test:
`(event_type, pulse, param_name, value, track_num, extra)`. -/
structure ParamEvent where
  kind : String
  pulse : Nat
  name : String
  value : ℤ
  track : ℤ
  extra : ℤ
deriving DecidableEq, Repr

/-- The duplication logic of `test_automation_looping_logic`: base `param`
events within the first `automation_loop_bars` bars are re-appended at the
offsets `loop_num * loop_pulses` for `loop_num in range(1, num_loops)` with
`num_loops = int(total_beats / loop_beats)`, keeping only duplicates below
`total_pulses`, and the schedule is then sorted by pulse. -/
def loopExpand (event_schedule : List ParamEvent)
    (automation_loop_bars bars : Nat) : List ParamEvent :=
  let loop_beats := automation_loop_bars * 4
  let loop_pulses := loop_beats * 24
  let total_beats := bars * 4
  let total_pulses := total_beats * 24
  let original_param_events := event_schedule.filter
    (fun e => e.kind == "param" && decide (e.pulse < loop_pulses))
  let num_loops := total_beats / loop_beats
  let dups := (List.range' 1 (num_loops - 1)).flatMap (fun loop_num =>
    original_param_events.filterMap (fun e =>
      if e.pulse + loop_num * loop_pulses < total_pulses then
        some { e with pulse := e.pulse + loop_num * loop_pulses, extra := 0 }
      else none))
  stableSortKey (fun e => (e.pulse : ℤ)) (event_schedule ++ dups)

theorem filterMap_if_true {α β : Type} (g : α → β) (p : α → Prop)
    [DecidablePred p] (l : List α) (h : ∀ a ∈ l, p a) :
    l.filterMap (fun a => if p a then some (g a) else none) = l.map g := by
  induction l with
  | nil => rfl
  | cons x xs ih =>
    rw [List.filterMap_cons, List.map_cons]
    rw [if_pos (h x (List.mem_cons_self x xs))]
    rw [ih (fun a ha => h a (List.mem_cons_of_mem x ha))]

theorem flatMap_congr_mem {α β : Type} {l : List α} {f g : α → List β}
    (h : ∀ a ∈ l, f a = g a) : l.flatMap f = l.flatMap g := by
  induction l with
  | nil => rfl
  | cons x xs ih =>
    rw [List.flatMap_cons, List.flatMap_cons]
    rw [h x (List.mem_cons_self x xs)]
    rw [ih (fun a ha => h a (List.mem_cons_of_mem x ha))]

/-- C4 counterexample: one base event at pulse 0 with `loop_bars = 4` over
`bars = 5` yields 1 event, while the claim's
`ceil(total_beats/loop_beats) = 2` copies truncated to fit would be 2 events
(the second copy, at pulse 384, lies below `total_pulses = 480` and is not
truncated away). -/
theorem claim4_counterexample :
    (loopExpand [⟨"param", 0, "filter_cutoff", 20, 0, 0⟩] 4 5).length = 1 ∧
    ((5 * 4 + (4 * 4) - 1) / (4 * 4) : Nat) * 1 = 2 ∧
    (0 : Nat) + 1 * (4 * 96) < 5 * 96 := by
  decide

/-- C4 as amended: for integer `loop_bars = L > 0` and `bars = B ≥ L`, with
every base entry a `param` event inside `[0, L*96)`, the code produces
exactly `floor(total_beats/loop_beats) = B/L` copies of the base pattern
(not `ceil`), each group offset by `k * L * 96` pulses; no produced
duplicate is ever at or beyond `total_pulses`. -/
theorem claim4_amended_floor_copies (sched : List ParamEvent) (L B : Nat)
    (hL : 0 < L) (hLB : L ≤ B)
    (hkind : ∀ e ∈ sched, e.kind = "param")
    (hwin : ∀ e ∈ sched, e.pulse < L * 96)
    (hextra : ∀ e ∈ sched, e.extra = 0) :
    (loopExpand sched L B).length = (B / L) * sched.length ∧
    List.Perm (loopExpand sched L B)
      ((List.range (B / L)).flatMap (fun k =>
        sched.map (fun e => { e with pulse := e.pulse + k * (L * 96) }))) := by
  have h96 : L * 4 * 24 = L * 96 := by ring
  have hfilter : sched.filter
      (fun e => e.kind == "param" && decide (e.pulse < L * 4 * 24)) = sched := by
    rw [List.filter_eq_self]
    intro e he
    rw [Bool.and_eq_true, beq_iff_eq, decide_eq_true_eq, h96]
    exact ⟨hkind e he, hwin e he⟩
  have hnum : B * 4 / (L * 4) = B / L := by
    rw [Nat.mul_div_mul_right _ _ (by omega : 0 < 4)]
  have hone : 1 ≤ B / L := (Nat.one_le_div_iff hL).mpr hLB
  have hkeep : ∀ k, k + 1 ≤ B / L → ∀ e ∈ sched,
      e.pulse + k * (L * 4 * 24) < B * 4 * 24 := by
    intro k hk e he
    have hw := hwin e he
    have h1 : e.pulse + k * (L * 96) < (k + 1) * (L * 96) := by
      calc e.pulse + k * (L * 96) < L * 96 + k * (L * 96) :=
            Nat.add_lt_add_right hw _
        _ = (k + 1) * (L * 96) := by ring
    have h2 : (k + 1) * (L * 96) ≤ (B / L) * (L * 96) :=
      Nat.mul_le_mul_right _ hk
    have h3 : (B / L) * (L * 96) ≤ B * 96 := by
      have hb : (B / L) * L ≤ B := Nat.div_mul_le_self B L
      calc (B / L) * (L * 96) = ((B / L) * L) * 96 := by ring
        _ ≤ B * 96 := Nat.mul_le_mul_right _ hb
    calc e.pulse + k * (L * 4 * 24) = e.pulse + k * (L * 96) := by rw [h96]
      _ < (k + 1) * (L * 96) := h1
      _ ≤ (B / L) * (L * 96) := h2
      _ ≤ B * 96 := h3
      _ = B * 4 * 24 := by ring
  have hshift : ∀ k, ∀ e ∈ sched,
      ({ e with pulse := e.pulse + k * (L * 4 * 24), extra := 0 } : ParamEvent) =
      { e with pulse := e.pulse + k * (L * 96) } := by
    intro k e he
    have hx := hextra e he
    cases e
    simp only at hx
    simp [h96, hx]
  have hdups :
      (List.range' 1 (B * 4 / (L * 4) - 1)).flatMap (fun loop_num =>
        (sched.filter (fun e => e.kind == "param" && decide (e.pulse < L * 4 * 24))).filterMap
          (fun e => if e.pulse + loop_num * (L * 4 * 24) < B * 4 * 24 then
            some { e with pulse := e.pulse + loop_num * (L * 4 * 24), extra := 0 }
          else none)) =
      (List.range' 1 (B / L - 1)).flatMap (fun k =>
        sched.map (fun e => { e with pulse := e.pulse + k * (L * 96) })) := by
    rw [hfilter, hnum]
    apply flatMap_congr_mem
    intro k hkmem
    rw [List.mem_range'_1] at hkmem
    have hk1 : k + 1 ≤ B / L := by omega
    rw [filterMap_if_true (fun e =>
        ({ e with pulse := e.pulse + k * (L * 4 * 24), extra := 0 } : ParamEvent))
      (fun e => e.pulse + k * (L * 4 * 24) < B * 4 * 24) sched
      (fun e he => hkeep k hk1 e he)]
    exact List.map_congr_left (hshift k)
  have hr : List.range (B / L) = 0 :: List.range' 1 (B / L - 1) := by
    rw [List.range_eq_range']
    obtain ⟨m, hm⟩ : ∃ m, B / L = m + 1 := ⟨B / L - 1, by omega⟩
    rw [hm, List.range'_succ]
    norm_num
  have hsplit : sched ++ (List.range' 1 (B / L - 1)).flatMap (fun k =>
      sched.map (fun e => { e with pulse := e.pulse + k * (L * 96) })) =
      (List.range (B / L)).flatMap (fun k =>
        sched.map (fun e => { e with pulse := e.pulse + k * (L * 96) })) := by
    rw [hr, List.flatMap_cons]
    congr 1
    rw [show (fun e : ParamEvent => ({ e with pulse := e.pulse + 0 * (L * 96) } : ParamEvent)) =
      (fun e : ParamEvent => e) from funext (fun e => by cases e; simp)]
    simp
  have hmain : loopExpand sched L B = stableSortKey (fun e => ((e.pulse : ℤ)))
      ((List.range (B / L)).flatMap (fun k =>
        sched.map (fun e => { e with pulse := e.pulse + k * (L * 96) }))) := by
    show stableSortKey (fun e => ((e.pulse : ℤ)))
      (sched ++ (List.range' 1 (B * 4 / (L * 4) - 1)).flatMap (fun loop_num =>
        (sched.filter (fun e => e.kind == "param" && decide (e.pulse < L * 4 * 24))).filterMap
          (fun e => if e.pulse + loop_num * (L * 4 * 24) < B * 4 * 24 then
            some { e with pulse := e.pulse + loop_num * (L * 4 * 24), extra := 0 }
          else none))) = _
    rw [hdups, hsplit]
  have hperm := stableSortKey_perm (fun e : ParamEvent => ((e.pulse : ℤ)))
    ((List.range (B / L)).flatMap (fun k =>
      sched.map (fun e => { e with pulse := e.pulse + k * (L * 96) })))
  constructor
  · rw [hmain, hperm.length_eq]
    rw [List.length_flatMap]
    simp only [Function.comp_def, List.length_map]
    rw [List.map_const', List.sum_replicate, List.length_range, smul_eq_mul]
  · rw [hmain]
    exact hperm

/-- The looping test's base schedule: 4 events in the first 4 bars. -/
def loopTestSched : List ParamEvent :=
  [⟨"param", 0, "filter_cutoff", 20, 0, 0⟩,
   ⟨"param", 96, "filter_cutoff", 80, 0, 0⟩,
   ⟨"param", 192, "filter_cutoff", 40, 0, 0⟩,
   ⟨"param", 288, "filter_cutoff", 100, 0, 0⟩]

/-- Witness for the amended C4 at the test's own input: 4 base events,
`loop_bars = 4`, `bars = 16` give exactly `4 × 4 = 16` events. -/
theorem claim4_witness : (loopExpand loopTestSched 4 16).length = 16 := by
  have h := claim4_amended_floor_copies loopTestSched 4 16 (by decide) (by decide)
    (by decide) (by decide) (by decide)
  rw [h.1]
  decide

/-! ### The `call_tool` entry point (server.py 1214-1221) -/

/-- A tool invocation: one constructor per embedded tool, plus the fallback
for any other tool name. -/
inductive ToolCall where
  | playTracksAndMelody (cfg : TMConfig)
  | playParameterAutomation (cfg : PAConfig)
  | filterSweep (mexp : ℚ → ℚ) (start_value end_value : ℤ) (duration_sec : ℚ)
      (curve : String) (steps : Nat) (channel : ℤ)
  | parameterSweep (mexp : ℚ → ℚ) (parameter : String)
      (start_value end_value : ℤ) (duration_sec : ℚ) (curve : String)
      (steps : Nat) (channel : ℤ)
  | filterEnvelope (attack_sec decay_sec : ℚ) (sustain_level : ℤ)
      (release_sec : ℚ) (steps_per_stage : Nat) (channel : ℤ)
  | parameterEnvelope (parameter : String) (attack_sec decay_sec : ℚ)
      (sustain_level : ℤ) (release_sec : ℚ) (steps_per_stage : Nat)
      (channel : ℤ)
  | unknownTool (name : String)

/-- Per-tool dispatch: the wire trace the tool sends and its response text
(for the play tools the status fragment; empty where the summary is pure
number formatting). -/
def runTool : ToolCall → List Msg × String
  | .playTracksAndMelody cfg => ((tmTrace cfg).map Prod.snd, tmStatus cfg)
  | .playParameterAutomation cfg => play_pattern_with_parameter_automation cfg
  | .filterSweep mexp s e dur curve steps ch =>
      (send_filter_sweep mexp s e dur curve steps ch, "")
  | .parameterSweep mexp param s e dur curve steps ch =>
      (send_parameter_sweep mexp param s e dur curve steps ch, "")
  | .filterEnvelope a d su r n ch => (send_filter_envelope a d su r n ch, "")
  | .parameterEnvelope param a d su r n ch =>
      (send_parameter_envelope param a d su r n ch, "")
  | .unknownTool name => ([], "Unknown tool: " ++ name)

/-- `call_tool`: the connectivity check sits before every per-tool branch;
without an output port the call returns the error text and nothing reaches
the port. -/
def call_tool (connected : Bool) (c : ToolCall) : List Msg × String :=
  if connected = false then
    ([], "Error: Not connected to Digitakt MIDI output port")
  else runTool c

/-- C9: for every tool and every argument object, a call without an active
MIDI output connection returns the single "not connected" error and sends
no message at all; the check precedes every per-tool branch. -/
theorem claim9_not_connected_fails_fast (c : ToolCall) :
    call_tool false c = ([], "Error: Not connected to Digitakt MIDI output port") ∧
    (call_tool false c).1 = [] := by
  constructor <;> rfl
